import Mathlib

/-!
Shallow embedding of the quizzer-api game server core.

The data model follows src/types.ts, the room entity follows the GameRoom
class and the registry operations follow the GameManager class of
src/game-room.ts (the variant that carries the player mode, the
kid-options view and the reset operation).  The countdown-timer
bookkeeping of the WebSocket handler (clearTimer / startQuestionTimer)
is embedded at the end.

Randomness is made explicit: every place the source shuffles a list with
Array.prototype.sort over a random comparator takes a shuffle function as
a parameter, and the quiz loaded by startGame (loadGame returns a
randomly reordered question list) is passed in as a value.

Mutation is by reference in the source: every operation fetches the room
object aliased inside the manager's Map and mutates it in place, so a
field write persists in the registry even on a path that returns an
error before calling saveRoom.  The embedding mirrors this by having each
operation return the result together with the updated registry, storing
the mutated room exactly when the source mutated the aliased object.
-/

inductive Mode
  | pro
  | kid
deriving DecidableEq, Repr

inductive Status
  | waiting
  | playing
  | finished
deriving DecidableEq, Repr

structure OptionEntry where
  id : String
  text : String
deriving DecidableEq, Repr

structure Question where
  id : Nat
  question : String
  qtype : String
  answer : String
deriving DecidableEq, Repr

inductive GameType
  | multipleChoice
  | autocomplete
deriving DecidableEq, Repr

structure Game where
  id : String
  title : String
  image : String
  gtype : GameType
  questions : List Question
  options : Option (List OptionEntry)
  placeholder : Option String
deriving DecidableEq, Repr

structure Player where
  id : String
  username : String
  profilePicture : String
  mode : Mode
  score : Nat
  hasAnswered : Bool
  isConnected : Bool
deriving DecidableEq, Repr

structure Viewer where
  id : String
  isConnected : Bool
deriving DecidableEq, Repr

structure User where
  playerId : String
  username : String
  profilePicture : String
  mode : Mode
deriving DecidableEq, Repr

structure QuestionForClient where
  id : Nat
  question : String
  qtype : String
  options : List OptionEntry
  kidOptions : List OptionEntry
  placeholder : Option String
  questionNumber : Nat
  totalQuestions : Nat
deriving DecidableEq, Repr

def MAX_PLAYERS : Nat := 10

def POINTS_PER_CORRECT : Nat := 100

structure GameRoom where
  code : String
  game : Option Game
  creatorId : String
  timerDuration : Nat
  players : List Player
  viewers : List Viewer
  status : Status
  currentQuestionIndex : Nat
  currentQuestion : Option QuestionForClient
  startedAt : Option Nat
deriving DecidableEq, Repr

/-- In-place mutation of the first list element satisfying a predicate,
as Array.prototype.find followed by field writes on the found object. -/
def updateFirst (q : α → Bool) (f : α → α) : List α → List α
  | [] => []
  | x :: xs => if q x then f x :: xs else x :: updateFirst q f xs

def GameRoom.new (code creatorId : String) : GameRoom :=
  { code := code, game := none, creatorId := creatorId, timerDuration := 15,
    players := [], viewers := [], status := Status.waiting,
    currentQuestionIndex := 0, currentQuestion := none, startedAt := none }

def GameRoom.addPlayer (room : GameRoom) (user : User) : GameRoom :=
  let newPlayer : Player :=
    { id := user.playerId, username := user.username,
      profilePicture := user.profilePicture, mode := user.mode,
      score := 0, hasAnswered := false, isConnected := true }
  { room with players := room.players ++ [newPlayer] }

def GameRoom.getPlayer (room : GameRoom) (playerId : String) : Option Player :=
  room.players.find? (fun p => p.id == playerId)

def GameRoom.removePlayer (room : GameRoom) (playerId : String) : GameRoom :=
  { room with players := room.players.filter (fun p => p.id != playerId) }

def GameRoom.disconnectPlayer (room : GameRoom) (playerId : String) : GameRoom :=
  let ps := updateFirst (fun p => p.id == playerId)
    (fun p => { p with isConnected := false }) room.players
  { room with players := ps }

/-- The field writes joinRoom performs on an already-present player. -/
def refreshPlayer (user : User) (p : Player) : Player :=
  { p with
    isConnected := true
    username := user.username
    profilePicture := user.profilePicture
    mode := user.mode
    hasAnswered := false
    score := 0 }

/-- The field write rejoinRoom performs on the found player. -/
def reconnectPlayer (p : Player) : Player := { p with isConnected := true }

/-- The field writes submitAnswer performs on the answering player. -/
def scoreAnswer (isCorrect : Bool) (p : Player) : Player :=
  { p with
    score := if isCorrect then p.score + POINTS_PER_CORRECT else p.score
    hasAnswered := true }

/-- GameRoom.startGame; the quiz returned by loadGame (already randomly
reordered) is passed in as a value, and Date.now() as a number. -/
def GameRoom.startGame (room : GameRoom) (game : Game)
    (timerDuration now : Nat) : GameRoom :=
  { room with
    game := some game
    status := Status.playing
    startedAt := some now
    currentQuestionIndex := 0
    timerDuration := timerDuration }

/-- Modelled from the spec: the GameRoom.resetGame method is invoked by the
manager's resetGame operation but its body is not among the provided
sources.  Spec section 4.1: the reset operation returns the room to a
pre-start-like state so the host may start a new round, and does not
remove players or viewers. -/
def GameRoom.resetGame (room : GameRoom) : GameRoom :=
  { room with
    game := none
    status := Status.waiting
    currentQuestionIndex := 0
    currentQuestion := none
    startedAt := none }

/-- The manager's Map from room code to room, as an association list with
at most one entry per key (Map.set replaces the entry for an existing
key; entry order is never observed by the operations). -/
abbrev Registry := List (String × GameRoom)

def Registry.get (r : Registry) (code : String) : Option GameRoom :=
  (r.find? (fun p => p.1 == code)).map (fun p => p.2)

def Registry.save (r : Registry) (room : GameRoom) : Registry :=
  (room.code, room) :: r.filter (fun p => p.1 != room.code)

def Registry.delete (r : Registry) (code : String) : Registry :=
  r.filter (fun p => p.1 != code)

/-- A stand-in for one call to the source's random comparator sort. -/
abbrev Shuffle := List OptionEntry → List OptionEntry

/-- GameManager.generateMultipleChoiceOptions.  shW shuffles the wrong
options before the first three are taken; shF shuffles the final four.
The source reads room.game?.options with a fallback to the empty list;
an absent option pool is modelled as the empty pool. -/
def generateMultipleChoiceOptions (shW shF : Shuffle) (room : GameRoom) :
    List OptionEntry :=
  match room.game with
  | none => []
  | some game =>
    match game.questions.get? room.currentQuestionIndex with
    | none => []
    | some question =>
      let pool := game.options.getD []
      let correctAnswer := pool.find? (fun o => o.id == question.answer)
      let wrongAnswers :=
        (shW (pool.filter (fun o => o.id != question.answer))).take 3
      match correctAnswer with
      | none => []
      | some correct => shF (correct :: wrongAnswers)

/-- GameManager.generateQuestion. -/
def generateQuestion (shW shF : Shuffle) (room : GameRoom) :
    Except String QuestionForClient :=
  match room.game with
  | none => Except.error "Game not loaded"
  | some game =>
    match game.questions.get? room.currentQuestionIndex with
    | none => Except.error "No more questions available"
    | some question =>
      let mc := generateMultipleChoiceOptions shW shF room
      let options : List OptionEntry :=
        match game.gtype with
        | GameType.multipleChoice => mc
        | GameType.autocomplete => game.options.getD []
      Except.ok
        { id := question.id, question := question.question,
          qtype := question.qtype, options := options, kidOptions := mc,
          placeholder :=
            match game.gtype with
            | GameType.autocomplete => game.placeholder
            | _ => none,
          questionNumber := room.currentQuestionIndex + 1,
          totalQuestions := game.questions.length }

/-- GameManager.createRoom; the code drawn by generateGameRoomCode is
passed in (its retry loop already guarantees an unused code or an error,
which is outside the scope of the claims). -/
def createRoom (r : Registry) (code creatorId : String) :
    Except String GameRoom × Registry :=
  match r.get code with
  | some _ => (Except.error "Room already exists", r)
  | none =>
    let room := GameRoom.new code creatorId
    (Except.ok room, r.save room)

/-- GameManager.joinRoom. -/
def joinRoom (r : Registry) (code : String) (user : User) :
    Except String GameRoom × Registry :=
  match r.get code with
  | none => (Except.error "Room not found", r)
  | some room =>
    if room.status ≠ Status.waiting then
      (Except.error "Game has already started", r)
    else if room.players.length ≥ MAX_PLAYERS then
      (Except.error "Room is full", r)
    else
      match room.getPlayer user.playerId with
      | some _ =>
        let ps := updateFirst (fun p => p.id == user.playerId)
          (refreshPlayer user) room.players
        let room' := { room with players := ps }
        (Except.ok room', r.save room')
      | none =>
        let room' := room.addPlayer user
        (Except.ok room', r.save room')

/-- GameManager.rejoinRoom. -/
def rejoinRoom (r : Registry) (code playerId : String) :
    Except String GameRoom × Registry :=
  match r.get code with
  | none => (Except.error "Room not found", r)
  | some room =>
    match room.getPlayer playerId with
    | none => (Except.error "Player not found", r)
    | some _ =>
      let ps := updateFirst (fun p => p.id == playerId)
        reconnectPlayer room.players
      let room' := { room with players := ps }
      (Except.ok room', r.save room')

/-- GameManager.leaveRoom; the ok-none result is the room-deleted signal. -/
def leaveRoom (r : Registry) (code playerId : String) :
    Except String (Option GameRoom) × Registry :=
  match r.get code with
  | none => (Except.error "Room not found", r)
  | some room =>
    match room.getPlayer playerId with
    | none => (Except.error "Player not found", r)
    | some _ =>
      match room.status with
      | Status.waiting =>
        let room1 := room.removePlayer playerId
        match room1.players with
        | [] => (Except.ok none, r.delete code)
        | p0 :: rest =>
          let room2 :=
            if playerId = room.creatorId then
              { room1 with players := p0 :: rest, creatorId := p0.id }
            else room1
          (Except.ok (some room2), r.save room2)
      | _ =>
        let room1 := room.disconnectPlayer playerId
        (Except.ok (some room1), r.save room1)

/-- GameManager.startGame.  On a question-generation error the source
returns the error without calling saveRoom, but the aliased room object
was already mutated by room.startGame, so the started room stays stored. -/
def startGame (shW shF : Shuffle) (r : Registry) (code : String)
    (game : Game) (timerDuration now : Nat) :
    Except String GameRoom × Registry :=
  match r.get code with
  | none => (Except.error "Room not found", r)
  | some room =>
    if room.status ≠ Status.waiting then
      (Except.error "Game has already started", r)
    else
      let room1 := room.startGame game timerDuration now
      match generateQuestion shW shF room1 with
      | Except.error e => (Except.error e, r.save room1)
      | Except.ok question =>
        let ps := room1.players.map (fun p => { p with hasAnswered := false })
        let room2 :=
          { room1 with currentQuestion := some question, players := ps }
        (Except.ok room2, r.save room2)

/-- GameManager.submitAnswer. -/
def submitAnswer (r : Registry) (code playerId answer : String) :
    Except String (Bool × GameRoom) × Registry :=
  match r.get code with
  | none => (Except.error "Room not found", r)
  | some room =>
    match room.status, room.currentQuestion with
    | Status.playing, some cq =>
      match room.getPlayer playerId with
      | none => (Except.error "Player not found", r)
      | some player =>
        if player.hasAnswered then (Except.error "Already answered", r)
        else
          let originalQuestion :=
            room.game.bind (fun g => g.questions.find? (fun q => q.id == cq.id))
          let isCorrect :=
            match originalQuestion with
            | some q => q.answer == answer
            | none => false
          let ps := updateFirst (fun p => p.id == playerId)
            (scoreAnswer isCorrect) room.players
          let room' := { room with players := ps }
          (Except.ok (isCorrect, room'), r.save room')
    | _, _ => (Except.error "No active question", r)

/-- The tail of GameManager.nextQuestion from the point where the question
result of generateQuestion is inspected: an error is absorbed into a
forced game over, a question becomes the new current question. -/
def nextQuestionOnGen (r : Registry) (room2 : GameRoom) :
    Except String QuestionForClient →
    Except String (GameRoom × Option QuestionForClient × Bool) × Registry
  | Except.error _ =>
    let room3 :=
      { room2 with status := Status.finished, currentQuestion := none }
    (Except.ok (room3, none, true), r.save room3)
  | Except.ok question =>
    let room3 := { room2 with currentQuestion := some question }
    (Except.ok (room3, some question, false), r.save room3)

/-- GameManager.nextQuestion.  The index increment happens on the aliased
room object before the game-loaded check, so it persists even on the
error path. -/
def nextQuestion (shW shF : Shuffle) (r : Registry) (code : String) :
    Except String (GameRoom × Option QuestionForClient × Bool) × Registry :=
  match r.get code with
  | none => (Except.error "Room not found", r)
  | some room =>
    let room1 :=
      { room with currentQuestionIndex := room.currentQuestionIndex + 1 }
    match room1.game with
    | none => (Except.error "Game not loaded", r.save room1)
    | some game =>
      if room1.currentQuestionIndex ≥ game.questions.length then
        let room2 :=
          { room1 with status := Status.finished, currentQuestion := none }
        (Except.ok (room2, none, true), r.save room2)
      else
        let ps := room1.players.map (fun p => { p with hasAnswered := false })
        let room2 := { room1 with players := ps }
        nextQuestionOnGen r room2 (generateQuestion shW shF room2)

/-- GameManager.resetGame (room.resetGame is the spec-modelled method). -/
def resetGame (r : Registry) (code : String) :
    Except String GameRoom × Registry :=
  match r.get code with
  | none => (Except.error "Room not found", r)
  | some room =>
    let room1 := room.resetGame
    let ps := room1.players.map
      (fun p => { p with hasAnswered := false, score := 0 })
    let room2 := { room1 with players := ps }
    (Except.ok room2, r.save room2)

/-- One registry operation together with its inputs; the random inputs
(loaded quiz, shuffles, generated code) are carried by the constructor. -/
inductive Op where
  | create (code creatorId : String)
  | join (code : String) (user : User)
  | rejoin (code playerId : String)
  | leave (code playerId : String)
  | start (shW shF : Shuffle) (code : String) (game : Game)
      (timerDuration now : Nat)
  | submit (code playerId answer : String)
  | next (shW shF : Shuffle) (code : String)
  | reset (code : String)

def applyOp (op : Op) (r : Registry) : Registry :=
  match op with
  | Op.create code creatorId => (createRoom r code creatorId).2
  | Op.join code user => (joinRoom r code user).2
  | Op.rejoin code playerId => (rejoinRoom r code playerId).2
  | Op.leave code playerId => (leaveRoom r code playerId).2
  | Op.start shW shF code game td now =>
      (startGame shW shF r code game td now).2
  | Op.submit code playerId answer => (submitAnswer r code playerId answer).2
  | Op.next shW shF code => (nextQuestion shW shF r code).2
  | Op.reset code => (resetGame r code).2

def applyOps (ops : List Op) (r : Registry) : Registry :=
  ops.foldl (fun r op => applyOp op r) r

def iterNextQuestion (code : String) :
    List (Shuffle × Shuffle) → Registry → Registry
  | [], r => r
  | s :: shs, r => iterNextQuestion code shs ((nextQuestion s.1 s.2 r code).2)

/-- Roster size bound of one room. -/
abbrev playersBounded (room : GameRoom) : Prop :=
  room.players.length ≤ MAX_PLAYERS

/-- Roster size bound over every tracked room. -/
abbrev regBounded (r : Registry) : Prop := ∀ e ∈ r, playersBounded e.2

/-- Exactly one roster entry carries the creator id while the roster is
non-empty, stated as the claim states it. -/
abbrev creatorUnique (room : GameRoom) : Prop :=
  room.players ≠ [] →
    room.players.countP (fun p => p.id == room.creatorId) = 1

/-- The claim's invariant over every tracked room. -/
abbrev regCreatorUnique (r : Registry) : Prop := ∀ e ∈ r, creatorUnique e.2

/-- Strengthened per-room invariant: distinct player ids in the roster,
and the creator id held by exactly one entry while non-empty. -/
abbrev creatorOk (room : GameRoom) : Prop :=
  (room.players.map Player.id).Nodup ∧ creatorUnique room

abbrev regCreatorOk (r : Registry) : Prop := ∀ e ∈ r, creatorOk e.2

/-- A join into a room whose roster is empty must seat the creator (the
HTTP create route does exactly this right after createRoom); every other
operation is unconstrained. -/
def safeOp (op : Op) (r : Registry) : Bool :=
  match op with
  | Op.join code user =>
    match r.get code with
    | some room => !room.players.isEmpty || (user.playerId == room.creatorId)
    | none => true
  | _ => true

def safeOps : List Op → Registry → Bool
  | [], _ => true
  | op :: ops, r => safeOp op r && safeOps ops (applyOp op r)

/-- Timer bookkeeping of the WebSocket handler: the timers Map from room
code to interval handle, the set of armed-and-not-yet-cancelled interval
handles tagged with their room, and a counter issuing fresh handles. -/
structure TimerState where
  timers : List (String × Nat)
  live : List (String × Nat)
  nextId : Nat
deriving DecidableEq, Repr

def TimerState.lookup (s : TimerState) (code : String) : Option Nat :=
  (s.timers.find? (fun p => p.1 == code)).map (fun p => p.2)

/-- WebSocketHandler.clearTimer: look the room's handle up in the Map; if
present, clearInterval that handle and delete the Map entry. -/
def clearTimer (code : String) (s : TimerState) : TimerState :=
  match s.lookup code with
  | none => s
  | some t =>
    { s with
      timers := s.timers.filter (fun p => p.1 != code)
      live := s.live.filter (fun p => p.2 != t) }

/-- WebSocketHandler.startQuestionTimer: clear any prior timer for the
room, arm a fresh interval and record its handle in the Map. -/
def startQuestionTimer (code : String) (_duration : Nat) (s : TimerState) :
    TimerState :=
  let s1 := clearTimer code s
  { timers := (code, s1.nextId) :: s1.timers,
    live := (code, s1.nextId) :: s1.live,
    nextId := s1.nextId + 1 }

/-- Well-formedness of the timer bookkeeping: live handles are pairwise
distinct, below the fresh counter, and registered in the Map. -/
abbrev timerWF (s : TimerState) : Prop :=
  s.live.Nodup ∧ (∀ p ∈ s.live, p.2 < s.nextId) ∧
    (∀ p ∈ s.live, s.lookup p.1 = some p.2)

/-! General lemmas about the list and registry primitives. -/

theorem updateFirst_length {α : Type} (q : α → Bool) (f : α → α)
    (l : List α) : (updateFirst q f l).length = l.length := by
  induction l with
  | nil => rfl
  | cons x xs ih =>
    by_cases h : q x <;> simp [updateFirst, h, ih]

theorem map_updateFirst {α β : Type} (q : α → Bool) (f : α → α) (g : α → β)
    (h : ∀ a, g (f a) = g a) (l : List α) :
    (updateFirst q f l).map g = l.map g := by
  induction l with
  | nil => rfl
  | cons x xs ih =>
    by_cases hx : q x <;> simp [updateFirst, hx, ih, h]

theorem countP_updateFirst {α : Type} (q : α → Bool) (f : α → α)
    (p : α → Bool) (h : ∀ a, p (f a) = p a) (l : List α) :
    (updateFirst q f l).countP p = l.countP p := by
  induction l with
  | nil => rfl
  | cons x xs ih =>
    by_cases hx : q x <;>
      simp [updateFirst, hx, List.countP_cons, ih, h]

theorem find?_updateFirst {α : Type} (q : α → Bool) (f : α → α)
    (h : ∀ a, q (f a) = q a) (l : List α) :
    (updateFirst q f l).find? q = (l.find? q).map f := by
  induction l with
  | nil => rfl
  | cons x xs ih =>
    by_cases hx : q x <;> simp [updateFirst, hx, List.find?_cons, h, ih]

theorem mem_updateFirst_of_neg {α : Type} (q : α → Bool) (f : α → α)
    {l : List α} {a : α} (ha : a ∈ l) (hq : q a = false) :
    a ∈ updateFirst q f l := by
  induction l with
  | nil => cases ha
  | cons x xs ih =>
    cases hx : q x with
    | true =>
      have hmem : a ∈ xs := by
        rcases List.mem_cons.1 ha with rfl | hm
        · rw [hq] at hx; cases hx
        · exact hm
      simp [updateFirst, hx]
      exact Or.inr hmem
    | false =>
      simp [updateFirst, hx]
      rcases List.mem_cons.1 ha with rfl | hm
      · exact Or.inl rfl
      · exact Or.inr (ih hm)

theorem find?_filter_key {β : Type} (l : List (String × β)) (c code : String)
    (h : c ≠ code) :
    (l.filter (fun p => p.1 != code)).find? (fun p => p.1 == c)
      = l.find? (fun p => p.1 == c) := by
  induction l with
  | nil => rfl
  | cons x xs ih =>
    by_cases hx : x.1 = code
    · have h1 : (x.1 != code) = false := by simp [hx]
      have h2 : (x.1 == c) = false := by
        simp only [beq_eq_false_iff_ne, ne_eq, hx]
        exact Ne.symm h
      simp [List.filter_cons, h1, h2, ih]
    · have h1 : (x.1 != code) = true := by simp [hx]
      by_cases hc : x.1 = c
      · simp [List.filter_cons, h1, hc, h]
      · have h2 : (x.1 == c) = false := by simp [hc]
        simp [List.filter_cons, h1, h2, ih]

theorem Registry.get_save_self (r : Registry) (room : GameRoom) :
    (r.save room).get room.code = some room := by
  unfold Registry.save Registry.get
  rw [List.find?_cons_of_pos _ (by simp)]
  rfl

theorem Registry.get_save_ne (r : Registry) (room : GameRoom) (c : String)
    (h : c ≠ room.code) : (r.save room).get c = r.get c := by
  have hne : (room.code == c) = false := by
    simp only [beq_eq_false_iff_ne, ne_eq]
    exact Ne.symm h
  simp [Registry.save, Registry.get, hne, find?_filter_key r c room.code h]

theorem mem_of_get_eq {r : Registry} {code : String} {room : GameRoom}
    (h : r.get code = some room) : ∃ e ∈ r, e.2 = room := by
  unfold Registry.get at h
  cases hf : r.find? (fun p => p.1 == code) with
  | none => rw [hf] at h; cases h
  | some e =>
    rw [hf] at h
    exact ⟨e, List.mem_of_find?_eq_some hf, by simpa using h⟩

theorem regAll_save {P : GameRoom → Prop} {r : Registry} {room : GameRoom}
    (h : ∀ e ∈ r, P e.2) (hroom : P room) : ∀ e ∈ r.save room, P e.2 := by
  intro e he
  rcases List.mem_cons.1 he with rfl | hmem
  · exact hroom
  · exact h e (List.mem_of_mem_filter hmem)

theorem regAll_delete {P : GameRoom → Prop} {r : Registry} {code : String}
    (h : ∀ e ∈ r, P e.2) : ∀ e ∈ r.delete code, P e.2 := by
  intro e he
  exact h e (List.mem_of_mem_filter he)

/-! Concrete fixtures used by the evaluation theorems. -/

def wUserA : User :=
  { playerId := "A", username := "alice", profilePicture := "pa",
    mode := Mode.pro }

def wPlayerA : Player :=
  { id := "A", username := "alice", profilePicture := "pa",
    mode := Mode.pro, score := 0, hasAnswered := false, isConnected := true }

def wPlayerB : Player :=
  { id := "B", username := "bob", profilePicture := "pb",
    mode := Mode.kid, score := 200, hasAnswered := true,
    isConnected := false }

def wQ1 : Question :=
  { id := 1, question := "q1", qtype := "mc", answer := "a" }

def wQ2 : Question :=
  { id := 2, question := "q2", qtype := "mc", answer := "b" }

def wGame : Game :=
  { id := "g1", title := "Flags", image := "img",
    gtype := GameType.multipleChoice, questions := [wQ1, wQ2],
    options := some
      [{ id := "a", text := "A" }, { id := "b", text := "B" },
       { id := "c", text := "C" }, { id := "d", text := "D" },
       { id := "e", text := "E" }],
    placeholder := none }

def wCq : QuestionForClient :=
  { id := 1, question := "q1", qtype := "mc", options := [],
    kidOptions := [], placeholder := none, questionNumber := 1,
    totalQuestions := 2 }

def wRoomPlaying : GameRoom :=
  { code := "R", game := some wGame, creatorId := "A", timerDuration := 15,
    players := [wPlayerA, wPlayerB], viewers := [], status := Status.playing,
    currentQuestionIndex := 0, currentQuestion := some wCq,
    startedAt := some 0 }

def wRegPlaying : Registry := [("R", wRoomPlaying)]

/-! Claim theorems. -/

/-- C10: on a room whose game is not loaded, nextQuestion returns the
failure Game not loaded, yet the stored room keeps the index increment
performed before the check: the error path mutates the room rather than
leaving it unchanged. -/
theorem nextQuestion_game_not_loaded
    (shW shF : Shuffle) (r : Registry) (code : String) (room : GameRoom)
    (hget : r.get code = some room) (hcode : room.code = code)
    (hgame : room.game = none) :
    nextQuestion shW shF r code =
      (Except.error "Game not loaded",
        r.save
          { room with currentQuestionIndex := room.currentQuestionIndex + 1 })
    ∧ (nextQuestion shW shF r code).2.get code =
        some { room with currentQuestionIndex := room.currentQuestionIndex + 1 }
    ∧ (nextQuestion shW shF r code).2.get code ≠ some room := by
  have heq : nextQuestion shW shF r code =
      (Except.error "Game not loaded",
        r.save
          { room with
            currentQuestionIndex := room.currentQuestionIndex + 1 }) := by
    simp [nextQuestion, hget, hgame]
  have hstored : (nextQuestion shW shF r code).2.get code =
      some { room with
        currentQuestionIndex := room.currentQuestionIndex + 1 } := by
    rw [heq]
    have hg := Registry.get_save_self r
      { room with currentQuestionIndex := room.currentQuestionIndex + 1 }
    simpa [hcode] using hg
  refine ⟨heq, hstored, ?_⟩
  rw [hstored]
  intro hcontra
  have hrooms : ({ room with
      currentQuestionIndex := room.currentQuestionIndex + 1 } : GameRoom)
      = room := Option.some.inj hcontra
  have hidx := congrArg GameRoom.currentQuestionIndex hrooms
  simp at hidx

/-- Witness for C10: a freshly created waiting room has no loaded game. -/
theorem nextQuestion_game_not_loaded_witness :
    (nextQuestion id id [("R", GameRoom.new "R" "C")] "R").1 =
      Except.error "Game not loaded"
    ∧ (nextQuestion id id [("R", GameRoom.new "R" "C")] "R").2.get "R" ≠
        some (GameRoom.new "R" "C") := by
  have h := nextQuestion_game_not_loaded id id [("R", GameRoom.new "R" "C")]
    "R" (GameRoom.new "R" "C") rfl rfl rfl
  exact ⟨by rw [h.1], h.2.2⟩

/-- C8: rejoinRoom sets the found player's isConnected to true and
changes nothing else: every other room field, every other field of the
player, and every other roster entry are untouched. -/
theorem rejoinRoom_frame
    (r : Registry) (code playerId : String) (room : GameRoom)
    (player : Player) (hget : r.get code = some room)
    (hp : room.getPlayer playerId = some player) :
    ∃ room',
      rejoinRoom r code playerId = (Except.ok room', r.save room')
      ∧ room'.players = updateFirst (fun p => p.id == playerId)
          reconnectPlayer room.players
      ∧ room'.code = room.code
      ∧ room'.game = room.game
      ∧ room'.creatorId = room.creatorId
      ∧ room'.timerDuration = room.timerDuration
      ∧ room'.viewers = room.viewers
      ∧ room'.status = room.status
      ∧ room'.currentQuestionIndex = room.currentQuestionIndex
      ∧ room'.currentQuestion = room.currentQuestion
      ∧ room'.startedAt = room.startedAt
      ∧ room'.getPlayer playerId = some (reconnectPlayer player)
      ∧ (reconnectPlayer player).score = player.score
      ∧ (reconnectPlayer player).hasAnswered = player.hasAnswered
      ∧ (reconnectPlayer player).username = player.username
      ∧ (reconnectPlayer player).profilePicture = player.profilePicture
      ∧ (reconnectPlayer player).mode = player.mode
      ∧ (reconnectPlayer player).isConnected = true
      ∧ room'.players.length = room.players.length
      ∧ (∀ q ∈ room.players, q.id ≠ playerId → q ∈ room'.players) := by
  have hp' : room.players.find? (fun p => p.id == playerId) = some player :=
    hp
  refine ⟨{ room with players := updateFirst (fun p => p.id == playerId) reconnectPlayer room.players },
    ?_, rfl, rfl, rfl, rfl, rfl, rfl, rfl,
    rfl, rfl, rfl, ?_, rfl, rfl, rfl, rfl, rfl, rfl, ?_, ?_⟩
  · simp [rejoinRoom, hget, hp]
  · show (updateFirst (fun p => p.id == playerId) reconnectPlayer
        room.players).find? (fun p => p.id == playerId)
      = some (reconnectPlayer player)
    rw [find?_updateFirst (fun p => p.id == playerId) reconnectPlayer
      (fun a => rfl) room.players, hp']
    rfl
  · exact updateFirst_length _ _ _
  · intro q hq hne
    exact mem_updateFirst_of_neg _ _ hq (by simp [hne])

/-- Witness for C8: a disconnected mid-game player rejoins. -/
theorem rejoinRoom_frame_witness :
    ∃ room',
      rejoinRoom wRegPlaying "R" "B" = (Except.ok room', wRegPlaying.save room')
      ∧ room'.getPlayer "B" = some (reconnectPlayer wPlayerB)
      ∧ (reconnectPlayer wPlayerB).score = wPlayerB.score := by
  obtain ⟨room', h1, _, _, _, _, _, _, _, _, _, _, h12, h13, _⟩ :=
    rejoinRoom_frame wRegPlaying "R" "B" wRoomPlaying wPlayerB rfl rfl
  exact ⟨room', h1, h12, h13⟩

/-- C3: joinRoom with an already-present player id refreshes that player
in place: username, avatar and mode are overwritten, hasAnswered is
cleared, score is reset to 0, isConnected is set true, and no second
roster entry is appended for that id. -/
theorem joinRoom_existing_refresh
    (r : Registry) (code : String) (user : User) (room : GameRoom)
    (existing : Player) (hget : r.get code = some room)
    (hstatus : room.status = Status.waiting)
    (hlen : room.players.length < MAX_PLAYERS)
    (hex : room.getPlayer user.playerId = some existing) :
    ∃ room',
      joinRoom r code user = (Except.ok room', r.save room')
      ∧ room'.players = updateFirst (fun p => p.id == user.playerId)
          (refreshPlayer user) room.players
      ∧ room'.getPlayer user.playerId = some (refreshPlayer user existing)
      ∧ (refreshPlayer user existing).username = user.username
      ∧ (refreshPlayer user existing).profilePicture = user.profilePicture
      ∧ (refreshPlayer user existing).mode = user.mode
      ∧ (refreshPlayer user existing).hasAnswered = false
      ∧ (refreshPlayer user existing).score = 0
      ∧ (refreshPlayer user existing).isConnected = true
      ∧ room'.players.length = room.players.length
      ∧ room'.players.countP (fun p => p.id == user.playerId)
          = room.players.countP (fun p => p.id == user.playerId) := by
  have hex' : room.players.find? (fun p => p.id == user.playerId)
      = some existing := hex
  have hnotfull : ¬ room.players.length ≥ MAX_PLAYERS := not_le.mpr hlen
  refine ⟨{ room with players := updateFirst (fun p => p.id == user.playerId) (refreshPlayer user) room.players },
    ?_, rfl, ?_, rfl, rfl, rfl, rfl,
    rfl, rfl, ?_, ?_⟩
  · simp [joinRoom, hget, hstatus, hnotfull, hex]
  · show (updateFirst (fun p => p.id == user.playerId) (refreshPlayer user)
        room.players).find? (fun p => p.id == user.playerId)
      = some (refreshPlayer user existing)
    rw [find?_updateFirst (fun p => p.id == user.playerId)
      (refreshPlayer user) (fun a => rfl) room.players, hex']
    rfl
  · exact updateFirst_length _ _ _
  · exact countP_updateFirst (fun p => p.id == user.playerId)
      (refreshPlayer user) (fun p => p.id == user.playerId)
      (fun a => rfl) room.players

/-- Witness for C3: the creator rejoins a waiting two-player room with a
new profile. -/
theorem joinRoom_existing_refresh_witness :
    ∃ room',
      joinRoom [("R", { wRoomPlaying with status := Status.waiting })] "R"
          { wUserA with username := "alice2" }
        = (Except.ok room',
           Registry.save [("R", { wRoomPlaying with status := Status.waiting })]
             room')
      ∧ room'.getPlayer "A"
          = some (refreshPlayer { wUserA with username := "alice2" } wPlayerA)
      ∧ room'.players.length
          = ({ wRoomPlaying with status := Status.waiting } : GameRoom).players.length := by
  obtain ⟨room', h1, _, h3, _, _, _, _, _, _, h10, _⟩ :=
    joinRoom_existing_refresh
      [("R", { wRoomPlaying with status := Status.waiting })] "R"
      { wUserA with username := "alice2" }
      { wRoomPlaying with status := Status.waiting } wPlayerA rfl rfl
      (by decide) rfl
  exact ⟨room', h1, h3, h10⟩

/-- C1: in a playing room with a current question, a player's first
submission scores exactly POINTS_PER_CORRECT iff the submitted string
equals the authoritative answer of the underlying question, marks the
player answered regardless of correctness, and any later submission by
the same player for the same question fails with Already answered and
leaves the registry, hence the score, unchanged. -/
theorem submitAnswer_first_then_already
    (r : Registry) (code playerId answer : String) (room : GameRoom)
    (g : Game) (cq : QuestionForClient) (player : Player) (oq : Question)
    (hget : r.get code = some room)
    (hstatus : room.status = Status.playing)
    (hcq : room.currentQuestion = some cq)
    (hplayer : room.getPlayer playerId = some player)
    (hans : player.hasAnswered = false)
    (hgame : room.game = some g)
    (hoq : g.questions.find? (fun q => q.id == cq.id) = some oq) :
    ∃ room',
      submitAnswer r code playerId answer
        = (Except.ok (oq.answer == answer, room'), r.save room')
      ∧ room'.players = updateFirst (fun p => p.id == playerId)
          (scoreAnswer (oq.answer == answer)) room.players
      ∧ room'.getPlayer playerId
          = some (scoreAnswer (oq.answer == answer) player)
      ∧ (scoreAnswer (oq.answer == answer) player).hasAnswered = true
      ∧ (oq.answer = answer →
          (scoreAnswer (oq.answer == answer) player).score
            = player.score + POINTS_PER_CORRECT)
      ∧ (oq.answer ≠ answer →
          (scoreAnswer (oq.answer == answer) player).score = player.score)
      ∧ ∀ (r2 : Registry) (room2 : GameRoom) (p2 : Player)
          (answer2 : String) (cq2 : QuestionForClient),
          r2.get code = some room2 → room2.status = Status.playing →
          room2.currentQuestion = some cq2 →
          room2.getPlayer playerId = some p2 → p2.hasAnswered = true →
          submitAnswer r2 code playerId answer2
            = (Except.error "Already answered", r2) := by
  have hplayer' : room.players.find? (fun p => p.id == playerId)
      = some player := hplayer
  refine ⟨{ room with players := updateFirst (fun p => p.id == playerId) (scoreAnswer (oq.answer == answer)) room.players },
    ?_, rfl, ?_, rfl, ?_, ?_, ?_⟩
  · simp [submitAnswer, hget, hstatus, hcq, hplayer, hans, hgame, hoq]
  · show (updateFirst (fun p => p.id == playerId)
        (scoreAnswer (oq.answer == answer))
        room.players).find? (fun p => p.id == playerId)
      = some (scoreAnswer (oq.answer == answer) player)
    rw [find?_updateFirst (fun p => p.id == playerId)
      (scoreAnswer (oq.answer == answer)) (fun a => rfl) room.players,
      hplayer']
    rfl
  · intro hy
    simp [scoreAnswer, hy]
  · intro hn
    have : (oq.answer == answer) = false := by simp [hn]
    simp [scoreAnswer, this]
  · intro r2 room2 p2 answer2 cq2 hget2 hstatus2 hcq2 hp2 hans2
    simp [submitAnswer, hget2, hstatus2, hcq2, hp2, hans2]

/-- Witness for C1: the correct answer to the active question scores. -/
theorem submitAnswer_first_then_already_witness :
    ∃ room',
      submitAnswer wRegPlaying "R" "A" "a"
        = (Except.ok (wQ1.answer == "a", room'), wRegPlaying.save room')
      ∧ room'.getPlayer "A" = some (scoreAnswer (wQ1.answer == "a") wPlayerA)
      ∧ (wQ1.answer = "a" →
          (scoreAnswer (wQ1.answer == "a") wPlayerA).score
            = wPlayerA.score + POINTS_PER_CORRECT) := by
  obtain ⟨room', h1, _, h3, _, h5, _, _⟩ :=
    submitAnswer_first_then_already wRegPlaying "R" "A" "a" wRoomPlaying
      wGame wCq wPlayerA wQ1 rfl rfl rfl rfl rfl rfl (by decide)
  exact ⟨room', h1, h3, h5⟩

/-- C6: while waiting, leaveRoom removes the player, deletes the room
when the roster empties, and passes the creator role to the first
remaining roster entry when the creator left; outside waiting it only
marks the player disconnected, leaving roster membership and scores
unchanged. -/
theorem leaveRoom_spec
    (r : Registry) (code playerId : String) (room : GameRoom)
    (player : Player) (hget : r.get code = some room)
    (hp : room.getPlayer playerId = some player) :
    (room.status = Status.waiting →
      (room.players.filter (fun p => p.id != playerId) = [] →
        leaveRoom r code playerId = (Except.ok none, r.delete code))
      ∧ ∀ p0 rest,
          room.players.filter (fun p => p.id != playerId) = p0 :: rest →
          ∃ room2,
            leaveRoom r code playerId
              = (Except.ok (some room2), r.save room2)
            ∧ room2.players = p0 :: rest
            ∧ room2.creatorId =
                (if playerId = room.creatorId then p0.id else room.creatorId))
    ∧ (room.status ≠ Status.waiting →
        ∃ room1,
          leaveRoom r code playerId = (Except.ok (some room1), r.save room1)
          ∧ room1.players = updateFirst (fun p => p.id == playerId)
              (fun p => { p with isConnected := false }) room.players
          ∧ room1.players.length = room.players.length
          ∧ room1.players.map Player.id = room.players.map Player.id
          ∧ room1.players.map Player.score = room.players.map Player.score
          ∧ room1.getPlayer playerId
              = some { player with isConnected := false }) := by
  have hp' : room.players.find? (fun p => p.id == playerId) = some player :=
    hp
  constructor
  · intro hw
    constructor
    · intro hempty
      simp [leaveRoom, hget, hp, hw, GameRoom.removePlayer, hempty]
    · intro p0 rest hcons
      by_cases hpc : playerId = room.creatorId
      · subst hpc
        refine ⟨{ room with players := p0 :: rest, creatorId := p0.id },
          ?_, rfl, ?_⟩
        · simp [leaveRoom, hget, hp, hw, GameRoom.removePlayer, hcons]
        · simp
      · refine ⟨room.removePlayer playerId, ?_, hcons, ?_⟩
        · simp [leaveRoom, hget, hp, hw, GameRoom.removePlayer, hcons, hpc]
        · simp [hpc, GameRoom.removePlayer]
  · intro hnw
    have heq : leaveRoom r code playerId
        = (Except.ok (some (room.disconnectPlayer playerId)),
           r.save (room.disconnectPlayer playerId)) := by
      cases hs : room.status with
      | waiting => exact absurd hs hnw
      | playing => simp [leaveRoom, hget, hp, hs]
      | finished => simp [leaveRoom, hget, hp, hs]
    refine ⟨room.disconnectPlayer playerId, heq, rfl, ?_, ?_, ?_, ?_⟩
    · exact updateFirst_length _ _ _
    · exact map_updateFirst (fun p => p.id == playerId)
        (fun p => { p with isConnected := false }) Player.id (fun a => rfl)
        room.players
    · exact map_updateFirst (fun p => p.id == playerId)
        (fun p => { p with isConnected := false }) Player.score
        (fun a => rfl) room.players
    · show (updateFirst (fun p => p.id == playerId)
          (fun p => { p with isConnected := false })
          room.players).find? (fun p => p.id == playerId)
        = some { player with isConnected := false }
      rw [find?_updateFirst (fun p => p.id == playerId)
        (fun p => { p with isConnected := false }) (fun a => rfl)
        room.players, hp']
      rfl

/-- Witness for C6: the creator leaves a waiting two-player room and the
creator role passes to the remaining player. -/
theorem leaveRoom_spec_witness :
    ∃ room2,
      leaveRoom [("R", { wRoomPlaying with status := Status.waiting })] "R" "A"
        = (Except.ok (some room2),
           Registry.save
             [("R", { wRoomPlaying with status := Status.waiting })] room2)
      ∧ room2.players = [wPlayerB]
      ∧ room2.creatorId = "B" := by
  have h := leaveRoom_spec
    [("R", { wRoomPlaying with status := Status.waiting })] "R" "A"
    { wRoomPlaying with status := Status.waiting } wPlayerA rfl rfl
  obtain ⟨room2, h1, h2, h3⟩ := (h.1 rfl).2 wPlayerB [] (by decide)
  refine ⟨room2, h1, h2, ?_⟩
  rw [h3]
  decide

/-! Preservation of the roster bound by each registry operation. -/

theorem playersBounded_of_get {r : Registry} {code : String}
    {room : GameRoom} (h : regBounded r) (hg : r.get code = some room) :
    playersBounded room := by
  obtain ⟨e, he, hee⟩ := mem_of_get_eq hg
  exact hee ▸ h e he

theorem regBounded_applyOp (op : Op) (r : Registry) (h : regBounded r) :
    regBounded (applyOp op r) := by
  cases op with
  | create code creatorId =>
    show regBounded (createRoom r code creatorId).2
    cases hg : r.get code with
    | some room => simpa [createRoom, hg] using h
    | none =>
      have heq : (createRoom r code creatorId).2
          = r.save (GameRoom.new code creatorId) := by
        simp [createRoom, hg]
      rw [heq]
      refine regAll_save h ?_
      simp [playersBounded, GameRoom.new, MAX_PLAYERS]
  | join code user =>
    show regBounded (joinRoom r code user).2
    cases hg : r.get code with
    | none => simpa [joinRoom, hg] using h
    | some room =>
      have hroomB := playersBounded_of_get h hg
      by_cases hs : room.status = Status.waiting
      · by_cases hfull : room.players.length ≥ MAX_PLAYERS
        · simpa [joinRoom, hg, hs, hfull] using h
        · cases hp : room.getPlayer user.playerId with
          | some p =>
            have heq : (joinRoom r code user).2
                = r.save { room with
                    players := (updateFirst (fun q => q.id == user.playerId)
                      (refreshPlayer user) room.players) } := by
              simp [joinRoom, hg, hs, hfull, hp]
            rw [heq]
            refine regAll_save h ?_
            simpa [playersBounded, updateFirst_length] using hroomB
          | none =>
            have heq : (joinRoom r code user).2
                = r.save (room.addPlayer user) := by
              simp [joinRoom, hg, hs, hfull, hp]
            rw [heq]
            refine regAll_save h ?_
            have hlt : room.players.length < MAX_PLAYERS :=
              lt_of_not_ge hfull
            simp only [playersBounded, GameRoom.addPlayer,
              List.length_append, List.length_cons, List.length_nil]
            omega
      · simpa [joinRoom, hg, hs] using h
  | rejoin code playerId =>
    show regBounded (rejoinRoom r code playerId).2
    cases hg : r.get code with
    | none => simpa [rejoinRoom, hg] using h
    | some room =>
      have hroomB := playersBounded_of_get h hg
      cases hp : room.getPlayer playerId with
      | none => simpa [rejoinRoom, hg, hp] using h
      | some p =>
        have heq : (rejoinRoom r code playerId).2
            = r.save { room with
                players := (updateFirst (fun q => q.id == playerId)
                  reconnectPlayer room.players) } := by
          simp [rejoinRoom, hg, hp]
        rw [heq]
        refine regAll_save h ?_
        simpa [playersBounded, updateFirst_length] using hroomB
  | leave code playerId =>
    show regBounded (leaveRoom r code playerId).2
    cases hg : r.get code with
    | none => simpa [leaveRoom, hg] using h
    | some room =>
      have hroomB := playersBounded_of_get h hg
      cases hp : room.getPlayer playerId with
      | none => simpa [leaveRoom, hg, hp] using h
      | some p =>
        cases hs : room.status with
        | waiting =>
          cases hfil : room.players.filter (fun q => q.id != playerId) with
          | nil =>
            have heq : (leaveRoom r code playerId).2 = r.delete code := by
              simp [leaveRoom, hg, hp, hs, GameRoom.removePlayer, hfil]
            rw [heq]
            exact regAll_delete h
          | cons p0 rest =>
            have hfl : (p0 :: rest).length ≤ room.players.length := by
              rw [← hfil]
              exact List.length_filter_le _ _
            by_cases hpc : playerId = room.creatorId
            · have hp2 : room.getPlayer room.creatorId = some p := hpc ▸ hp
              have hfil2 : room.players.filter
                  (fun q => q.id != room.creatorId) = p0 :: rest :=
                hpc ▸ hfil
              have heq : (leaveRoom r code playerId).2
                  = r.save { room with
                      players := p0 :: rest
                      creatorId := p0.id } := by
                simp [leaveRoom, hg, hpc, hp2, hs, GameRoom.removePlayer,
                  hfil2]
              rw [heq]
              refine regAll_save h ?_
              simp only [playersBounded]
              exact le_trans hfl hroomB
            · have heq : (leaveRoom r code playerId).2
                  = r.save (room.removePlayer playerId) := by
                simp [leaveRoom, hg, hp, hs, GameRoom.removePlayer, hfil, hpc]
              rw [heq]
              refine regAll_save h ?_
              simp only [playersBounded, GameRoom.removePlayer]
              exact le_trans (List.length_filter_le _ _) hroomB
        | playing =>
          have heq : (leaveRoom r code playerId).2
              = r.save (room.disconnectPlayer playerId) := by
            simp [leaveRoom, hg, hp, hs]
          rw [heq]
          refine regAll_save h ?_
          simpa [playersBounded, GameRoom.disconnectPlayer,
            updateFirst_length] using hroomB
        | finished =>
          have heq : (leaveRoom r code playerId).2
              = r.save (room.disconnectPlayer playerId) := by
            simp [leaveRoom, hg, hp, hs]
          rw [heq]
          refine regAll_save h ?_
          simpa [playersBounded, GameRoom.disconnectPlayer,
            updateFirst_length] using hroomB
  | start shW shF code game td now =>
    show regBounded (startGame shW shF r code game td now).2
    cases hg : r.get code with
    | none => simpa [startGame, hg] using h
    | some room =>
      have hroomB := playersBounded_of_get h hg
      by_cases hs : room.status = Status.waiting
      · cases hq : generateQuestion shW shF (room.startGame game td now) with
        | error e =>
          have heq : (startGame shW shF r code game td now).2
              = r.save (room.startGame game td now) := by
            simp [startGame, hg, hs, hq]
          rw [heq]
          refine regAll_save h ?_
          simpa [playersBounded, GameRoom.startGame] using hroomB
        | ok q =>
          have heq : (startGame shW shF r code game td now).2
              = r.save { room.startGame game td now with
                  currentQuestion := some q
                  players := ((room.startGame game td now).players.map
                    (fun p => { p with hasAnswered := false })) } := by
            simp [startGame, hg, hs, hq]
          rw [heq]
          refine regAll_save h ?_
          simpa [playersBounded, GameRoom.startGame] using hroomB
      · simpa [startGame, hg, hs] using h
  | submit code playerId answer =>
    show regBounded (submitAnswer r code playerId answer).2
    cases hg : r.get code with
    | none => simpa [submitAnswer, hg] using h
    | some room =>
      have hroomB := playersBounded_of_get h hg
      cases hs : room.status with
      | waiting => simpa [submitAnswer, hg, hs] using h
      | finished => simpa [submitAnswer, hg, hs] using h
      | playing =>
        cases hcq : room.currentQuestion with
        | none => simpa [submitAnswer, hg, hs, hcq] using h
        | some cq =>
          cases hp : room.getPlayer playerId with
          | none => simpa [submitAnswer, hg, hs, hcq, hp] using h
          | some p =>
            by_cases ha : p.hasAnswered = true
            · simpa [submitAnswer, hg, hs, hcq, hp, ha] using h
            · have ha' : p.hasAnswered = false := by
                simpa using ha
              have heq : (submitAnswer r code playerId answer).2
                  = r.save { room with
                      players := (updateFirst (fun q => q.id == playerId)
                        (scoreAnswer
                          (match room.game.bind (fun g =>
                              g.questions.find? (fun q => q.id == cq.id)) with
                           | some q => q.answer == answer
                           | none => false)) room.players) } := by
                simp [submitAnswer, hg, hs, hcq, hp, ha']
              rw [heq]
              refine regAll_save h ?_
              simpa [playersBounded, updateFirst_length] using hroomB
  | next shW shF code =>
    show regBounded (nextQuestion shW shF r code).2
    cases hg : r.get code with
    | none => simpa [nextQuestion, hg] using h
    | some room =>
      have hroomB := playersBounded_of_get h hg
      cases hgm : room.game with
      | none =>
        have heq : (nextQuestion shW shF r code).2
            = r.save { room with
                currentQuestionIndex := room.currentQuestionIndex + 1 } := by
          simp [nextQuestion, hg, hgm]
        rw [heq]
        refine regAll_save h ?_
        simpa [playersBounded] using hroomB
      | some g =>
        by_cases hge : room.currentQuestionIndex + 1 ≥ g.questions.length
        · have heq : (nextQuestion shW shF r code).2
              = r.save { room with
                  currentQuestionIndex := room.currentQuestionIndex + 1
                  status := Status.finished
                  currentQuestion := none } := by
            simp [nextQuestion, hg, hgm, hge]
          rw [heq]
          refine regAll_save h ?_
          simpa [playersBounded] using hroomB
        · cases hq : generateQuestion shW shF
              { room with
                game := some g
                currentQuestionIndex := room.currentQuestionIndex + 1
                players := (room.players.map
                  (fun p => { p with hasAnswered := false })) } with
          | error e =>
            have heq : (nextQuestion shW shF r code).2
                = r.save { room with
                    currentQuestionIndex := room.currentQuestionIndex + 1
                    players := (room.players.map
                      (fun p => { p with hasAnswered := false }))
                    status := Status.finished
                    currentQuestion := none } := by
              simp [nextQuestion, hg, hgm, hge, nextQuestionOnGen, hq]
            rw [heq]
            refine regAll_save h ?_
            simpa [playersBounded] using hroomB
          | ok q =>
            have heq : (nextQuestion shW shF r code).2
                = r.save { room with
                    currentQuestionIndex := room.currentQuestionIndex + 1
                    players := (room.players.map
                      (fun p => { p with hasAnswered := false }))
                    currentQuestion := some q } := by
              simp [nextQuestion, hg, hgm, hge, nextQuestionOnGen, hq]
            rw [heq]
            refine regAll_save h ?_
            simpa [playersBounded] using hroomB
  | reset code =>
    show regBounded (resetGame r code).2
    cases hg : r.get code with
    | none => simpa [resetGame, hg] using h
    | some room =>
      have hroomB := playersBounded_of_get h hg
      have heq : (resetGame r code).2
          = r.save { room.resetGame with
              players := (room.resetGame.players.map
                (fun p => { p with hasAnswered := false, score := 0 })) } := by
        simp [resetGame, hg]
      rw [heq]
      refine regAll_save h ?_
      simpa [playersBounded, GameRoom.resetGame] using hroomB

theorem regBounded_applyOps (ops : List Op) :
    ∀ r : Registry, regBounded r → regBounded (applyOps ops r) := by
  induction ops with
  | nil => intro r h; exact h
  | cons op ops ih =>
    intro r h
    exact ih _ (regBounded_applyOp op r h)

def wMkPlayer (s : String) : Player :=
  { id := s, username := s, profilePicture := "", mode := Mode.pro,
    score := 0, hasAnswered := false, isConnected := true }

def wFullRoom : GameRoom :=
  { GameRoom.new "R" "P0" with
    players := [wMkPlayer "P0", wMkPlayer "P1", wMkPlayer "P2",
      wMkPlayer "P3", wMkPlayer "P4", wMkPlayer "P5", wMkPlayer "P6",
      wMkPlayer "P7", wMkPlayer "P8", wMkPlayer "P9"] }

/-- C5: every tracked roster stays within MAX_PLAYERS across every
sequence of registry operations, and joinRoom on a full waiting room
fails with Room is full and leaves the registry unchanged. -/
theorem max_players_invariant
    (r : Registry) (ops : List Op) (h : regBounded r) :
    regBounded (applyOps ops r)
    ∧ ∀ (code : String) (user : User) (room : GameRoom),
        r.get code = some room → room.status = Status.waiting →
        room.players.length = MAX_PLAYERS →
        joinRoom r code user = (Except.error "Room is full", r) := by
  refine ⟨regBounded_applyOps ops r h, ?_⟩
  intro code user room hg hs hfull
  have hge : room.players.length ≥ MAX_PLAYERS := le_of_eq hfull.symm
  simp [joinRoom, hg, hs, hge]

/-- Witness for C5: a room already holding ten players rejects a join. -/
theorem max_players_invariant_witness :
    regBounded (applyOps [Op.join "R" wUserA] [("R", wFullRoom)])
    ∧ joinRoom [("R", wFullRoom)] "R" wUserA
        = (Except.error "Room is full", [("R", wFullRoom)]) := by
  have h := max_players_invariant [("R", wFullRoom)] [Op.join "R" wUserA]
    (by decide)
  exact ⟨h.1, h.2 "R" wUserA wFullRoom rfl rfl (by decide)⟩

/-! Creator-uniqueness machinery. -/

theorem countP_eq_of_map_id {l l' : List Player} (c : String)
    (h : l'.map Player.id = l.map Player.id) :
    l'.countP (fun p => p.id == c) = l.countP (fun p => p.id == c) :=
  calc l'.countP (fun p => p.id == c)
      = (l'.map Player.id).countP (fun s => s == c) :=
        (List.countP_map (fun s => s == c) Player.id l').symm
    _ = (l.map Player.id).countP (fun s => s == c) := by rw [h]
    _ = l.countP (fun p => p.id == c) :=
        List.countP_map (fun s => s == c) Player.id l

theorem creatorOk_congr {room room' : GameRoom}
    (hid : room'.players.map Player.id = room.players.map Player.id)
    (hc : room'.creatorId = room.creatorId) (h : creatorOk room) :
    creatorOk room' := by
  obtain ⟨hn, hu⟩ := h
  constructor
  · rw [hid]
    exact hn
  · intro hne
    have hne' : room.players ≠ [] := by
      intro h0
      apply hne
      have hmap : room'.players.map Player.id = [] := by
        rw [hid, h0]
        rfl
      exact List.map_eq_nil_iff.mp hmap
    rw [hc, countP_eq_of_map_id room.creatorId hid]
    exact hu hne'

theorem creatorOk_of_get {r : Registry} {code : String} {room : GameRoom}
    (h : regCreatorOk r) (hg : r.get code = some room) : creatorOk room := by
  obtain ⟨e, he, hee⟩ := mem_of_get_eq hg
  exact hee ▸ h e he

theorem map_map_field {α β : Type} (f : α → α) (g : α → β)
    (h : ∀ a, g (f a) = g a) (l : List α) :
    (l.map f).map g = l.map g := by
  rw [List.map_map]
  exact List.map_congr_left (fun a _ => h a)

theorem regCreatorOk_applyOp (op : Op) (r : Registry)
    (h : regCreatorOk r) (hsafe : safeOp op r = true) :
    regCreatorOk (applyOp op r) := by
  cases op with
  | create code creatorId =>
    show regCreatorOk (createRoom r code creatorId).2
    cases hg : r.get code with
    | some room => simpa [createRoom, hg] using h
    | none =>
      have heq : (createRoom r code creatorId).2
          = r.save (GameRoom.new code creatorId) := by
        simp [createRoom, hg]
      rw [heq]
      refine regAll_save h ?_
      constructor
      · simp [GameRoom.new]
      · intro hne
        exact absurd rfl hne
  | join code user =>
    show regCreatorOk (joinRoom r code user).2
    cases hg : r.get code with
    | none => simpa [joinRoom, hg] using h
    | some room =>
      have hroomC := creatorOk_of_get h hg
      by_cases hs : room.status = Status.waiting
      · by_cases hfull : room.players.length ≥ MAX_PLAYERS
        · simpa [joinRoom, hg, hs, hfull] using h
        · cases hp : room.getPlayer user.playerId with
          | some p =>
            have heq : (joinRoom r code user).2
                = r.save { room with
                    players := (updateFirst (fun q => q.id == user.playerId)
                      (refreshPlayer user) room.players) } := by
              simp [joinRoom, hg, hs, hfull, hp]
            rw [heq]
            refine regAll_save h (creatorOk_congr ?_ ?_ hroomC)
            · exact map_updateFirst (fun q => q.id == user.playerId)
                (refreshPlayer user) Player.id (fun a => rfl) room.players
            · rfl
          | none =>
            have hp' : room.players.find? (fun q => q.id == user.playerId)
                = none := hp
            have hnotin : ∀ x ∈ room.players,
                ¬ (x.id == user.playerId) = true :=
              List.find?_eq_none.mp hp'
            have huid : user.playerId ∉ room.players.map Player.id := by
              intro hmem
              obtain ⟨x, hx, hxid⟩ := List.mem_map.mp hmem
              exact hnotin x hx (by simp [hxid])
            have heq : (joinRoom r code user).2
                = r.save (room.addPlayer user) := by
              simp [joinRoom, hg, hs, hfull, hp]
            rw [heq]
            refine regAll_save h ?_
            constructor
            · show ((room.addPlayer user).players.map Player.id).Nodup
              simp only [GameRoom.addPlayer, List.map_append, List.map_cons,
                List.map_nil]
              rw [List.nodup_append]
              refine ⟨hroomC.1, List.nodup_singleton _, ?_⟩
              intro a ha hb
              rcases List.mem_singleton.mp hb with rfl
              exact huid ha
            · intro _
              show (room.addPlayer user).players.countP
                  (fun q => q.id == (room.addPlayer user).creatorId) = 1
              by_cases he : room.players = []
              · have hsafe' : (!room.players.isEmpty
                    || (user.playerId == room.creatorId)) = true := by
                  simpa [safeOp, hg] using hsafe
                have hcreator : (user.playerId == room.creatorId) = true := by
                  simpa [he] using hsafe'
                simp [GameRoom.addPlayer, he, hcreator]
              · have hu := hroomC.2 he
                have hne2 : ¬ (user.playerId == room.creatorId) = true := by
                  intro hb
                  have hpos : 0 < room.players.countP
                      (fun q => q.id == room.creatorId) := by
                    rw [hu]
                    norm_num
                  obtain ⟨x, hx, hxc⟩ := List.countP_pos_iff.mp hpos
                  have h1 : x.id = room.creatorId := by simpa using hxc
                  have h2 : user.playerId = room.creatorId := by
                    simpa using hb
                  exact hnotin x hx (by simp [h1, h2])
                have hfalse : (user.playerId == room.creatorId) = false := by
                  cases hh : (user.playerId == room.creatorId) with
                  | true => exact absurd hh hne2
                  | false => rfl
                simp [GameRoom.addPlayer, List.countP_append,
                  List.countP_cons, hfalse, hu]
      · simpa [joinRoom, hg, hs] using h
  | rejoin code playerId =>
    show regCreatorOk (rejoinRoom r code playerId).2
    cases hg : r.get code with
    | none => simpa [rejoinRoom, hg] using h
    | some room =>
      have hroomC := creatorOk_of_get h hg
      cases hp : room.getPlayer playerId with
      | none => simpa [rejoinRoom, hg, hp] using h
      | some p =>
        have heq : (rejoinRoom r code playerId).2
            = r.save { room with
                players := (updateFirst (fun q => q.id == playerId)
                  reconnectPlayer room.players) } := by
          simp [rejoinRoom, hg, hp]
        rw [heq]
        refine regAll_save h (creatorOk_congr ?_ ?_ hroomC)
        · exact map_updateFirst (fun q => q.id == playerId) reconnectPlayer
            Player.id (fun a => rfl) room.players
        · rfl
  | leave code playerId =>
    show regCreatorOk (leaveRoom r code playerId).2
    cases hg : r.get code with
    | none => simpa [leaveRoom, hg] using h
    | some room =>
      have hroomC := creatorOk_of_get h hg
      cases hp : room.getPlayer playerId with
      | none => simpa [leaveRoom, hg, hp] using h
      | some p =>
        cases hs : room.status with
        | waiting =>
          cases hfil : room.players.filter (fun q => q.id != playerId) with
          | nil =>
            have heq : (leaveRoom r code playerId).2 = r.delete code := by
              simp [leaveRoom, hg, hp, hs, GameRoom.removePlayer, hfil]
            rw [heq]
            exact regAll_delete h
          | cons p0 rest =>
            have hplayersne : room.players ≠ [] := by
              intro h0
              rw [h0] at hfil
              simp at hfil
            have hsubids : List.Sublist
                ((p0 :: rest).map Player.id)
                (room.players.map Player.id) := by
              rw [← hfil]
              exact List.Sublist.map Player.id (List.filter_sublist _)
            have hnodup2 : ((p0 :: rest).map Player.id).Nodup :=
              hsubids.nodup hroomC.1
            by_cases hpc : playerId = room.creatorId
            · have hp2 : room.getPlayer room.creatorId = some p := hpc ▸ hp
              have hfil2 : room.players.filter
                  (fun q => q.id != room.creatorId) = p0 :: rest :=
                hpc ▸ hfil
              have heq : (leaveRoom r code playerId).2
                  = r.save { room with
                      players := p0 :: rest
                      creatorId := p0.id } := by
                simp [leaveRoom, hg, hpc, hp2, hs, GameRoom.removePlayer,
                  hfil2]
              rw [heq]
              refine regAll_save h ?_
              constructor
              · exact hnodup2
              · intro _
                show (p0 :: rest).countP (fun q => q.id == p0.id) = 1
                have hzero : rest.countP (fun q => q.id == p0.id) = 0 := by
                  rw [List.countP_eq_zero]
                  intro a ha hmem
                  have hm : p0.id ∈ rest.map Player.id := by
                    refine List.mem_map.mpr ⟨a, ha, ?_⟩
                    simpa using hmem
                  have hn := hnodup2
                  rw [List.map_cons, List.nodup_cons] at hn
                  exact hn.1 hm
                rw [List.countP_cons, hzero]
                simp
            · have hu := hroomC.2 hplayersne
              have heq : (leaveRoom r code playerId).2
                  = r.save (room.removePlayer playerId) := by
                simp [leaveRoom, hg, hp, hs, GameRoom.removePlayer, hfil,
                  hpc]
              rw [heq]
              refine regAll_save h ?_
              constructor
              · show ((room.players.filter
                    (fun q => q.id != playerId)).map Player.id).Nodup
                rw [hfil]
                exact hnodup2
              · intro _
                show (room.players.filter
                    (fun q => q.id != playerId)).countP
                  (fun q => q.id == room.creatorId) = 1
                rw [List.countP_filter]
                have hcongr : room.players.countP
                    (fun a => (a.id == room.creatorId) && (a.id != playerId))
                    = room.players.countP
                      (fun a => a.id == room.creatorId) := by
                  refine List.countP_congr ?_
                  intro x hx
                  constructor
                  · intro hb
                    exact (Bool.and_eq_true_iff.mp hb).1
                  · intro hb
                    have hxid : x.id = room.creatorId := by simpa using hb
                    have hxne : (x.id != playerId) = true := by
                      simp only [bne_iff_ne, ne_eq, hxid]
                      exact fun hcp => hpc hcp.symm
                    exact Bool.and_eq_true_iff.mpr ⟨hb, hxne⟩
                rw [hcongr, hu]
        | playing =>
          have heq : (leaveRoom r code playerId).2
              = r.save (room.disconnectPlayer playerId) := by
            simp [leaveRoom, hg, hp, hs]
          rw [heq]
          refine regAll_save h (creatorOk_congr ?_ ?_ hroomC)
          · exact map_updateFirst (fun q => q.id == playerId)
              (fun q => { q with isConnected := false }) Player.id
              (fun a => rfl) room.players
          · rfl
        | finished =>
          have heq : (leaveRoom r code playerId).2
              = r.save (room.disconnectPlayer playerId) := by
            simp [leaveRoom, hg, hp, hs]
          rw [heq]
          refine regAll_save h (creatorOk_congr ?_ ?_ hroomC)
          · exact map_updateFirst (fun q => q.id == playerId)
              (fun q => { q with isConnected := false }) Player.id
              (fun a => rfl) room.players
          · rfl
  | start shW shF code game td now =>
    show regCreatorOk (startGame shW shF r code game td now).2
    cases hg : r.get code with
    | none => simpa [startGame, hg] using h
    | some room =>
      have hroomC := creatorOk_of_get h hg
      by_cases hs : room.status = Status.waiting
      · cases hq : generateQuestion shW shF (room.startGame game td now) with
        | error e =>
          have heq : (startGame shW shF r code game td now).2
              = r.save (room.startGame game td now) := by
            simp [startGame, hg, hs, hq]
          rw [heq]
          refine regAll_save h (creatorOk_congr ?_ ?_ hroomC)
          · rfl
          · rfl
        | ok q =>
          have heq : (startGame shW shF r code game td now).2
              = r.save { room.startGame game td now with
                  currentQuestion := some q
                  players := ((room.startGame game td now).players.map
                    (fun p => { p with hasAnswered := false })) } := by
            simp [startGame, hg, hs, hq]
          rw [heq]
          refine regAll_save h (creatorOk_congr ?_ ?_ hroomC)
          · exact map_map_field (fun p => { p with hasAnswered := false })
              Player.id (fun a => rfl) room.players
          · rfl
      · simpa [startGame, hg, hs] using h
  | submit code playerId answer =>
    show regCreatorOk (submitAnswer r code playerId answer).2
    cases hg : r.get code with
    | none => simpa [submitAnswer, hg] using h
    | some room =>
      have hroomC := creatorOk_of_get h hg
      cases hs : room.status with
      | waiting => simpa [submitAnswer, hg, hs] using h
      | finished => simpa [submitAnswer, hg, hs] using h
      | playing =>
        cases hcq : room.currentQuestion with
        | none => simpa [submitAnswer, hg, hs, hcq] using h
        | some cq =>
          cases hp : room.getPlayer playerId with
          | none => simpa [submitAnswer, hg, hs, hcq, hp] using h
          | some p =>
            by_cases ha : p.hasAnswered = true
            · simpa [submitAnswer, hg, hs, hcq, hp, ha] using h
            · have ha' : p.hasAnswered = false := by
                simpa using ha
              have heq : (submitAnswer r code playerId answer).2
                  = r.save { room with
                      players := (updateFirst (fun q => q.id == playerId)
                        (scoreAnswer
                          (match room.game.bind (fun g =>
                              g.questions.find? (fun q => q.id == cq.id)) with
                           | some q => q.answer == answer
                           | none => false)) room.players) } := by
                simp [submitAnswer, hg, hs, hcq, hp, ha']
              rw [heq]
              refine regAll_save h (creatorOk_congr ?_ ?_ hroomC)
              · exact map_updateFirst (fun q => q.id == playerId)
                  (scoreAnswer
                    (match room.game.bind (fun g =>
                        g.questions.find? (fun q => q.id == cq.id)) with
                     | some q => q.answer == answer
                     | none => false)) Player.id
                  (fun a => rfl) room.players
              · rfl
  | next shW shF code =>
    show regCreatorOk (nextQuestion shW shF r code).2
    cases hg : r.get code with
    | none => simpa [nextQuestion, hg] using h
    | some room =>
      have hroomC := creatorOk_of_get h hg
      cases hgm : room.game with
      | none =>
        have heq : (nextQuestion shW shF r code).2
            = r.save { room with
                currentQuestionIndex := room.currentQuestionIndex + 1 } := by
          simp [nextQuestion, hg, hgm]
        rw [heq]
        refine regAll_save h (creatorOk_congr ?_ ?_ hroomC)
        · rfl
        · rfl
      | some g =>
        by_cases hge : room.currentQuestionIndex + 1 ≥ g.questions.length
        · have heq : (nextQuestion shW shF r code).2
              = r.save { room with
                  currentQuestionIndex := room.currentQuestionIndex + 1
                  status := Status.finished
                  currentQuestion := none } := by
            simp [nextQuestion, hg, hgm, hge]
          rw [heq]
          refine regAll_save h (creatorOk_congr ?_ ?_ hroomC)
          · rfl
          · rfl
        · cases hq : generateQuestion shW shF
              { room with
                game := some g
                currentQuestionIndex := room.currentQuestionIndex + 1
                players := (room.players.map
                  (fun p => { p with hasAnswered := false })) } with
          | error e =>
            have heq : (nextQuestion shW shF r code).2
                = r.save { room with
                    currentQuestionIndex := room.currentQuestionIndex + 1
                    players := (room.players.map
                      (fun p => { p with hasAnswered := false }))
                    status := Status.finished
                    currentQuestion := none } := by
              simp [nextQuestion, hg, hgm, hge, nextQuestionOnGen, hq]
            rw [heq]
            refine regAll_save h (creatorOk_congr ?_ ?_ hroomC)
            · exact map_map_field (fun p => { p with hasAnswered := false })
                Player.id (fun a => rfl) room.players
            · rfl
          | ok q =>
            have heq : (nextQuestion shW shF r code).2
                = r.save { room with
                    currentQuestionIndex := room.currentQuestionIndex + 1
                    players := (room.players.map
                      (fun p => { p with hasAnswered := false }))
                    currentQuestion := some q } := by
              simp [nextQuestion, hg, hgm, hge, nextQuestionOnGen, hq]
            rw [heq]
            refine regAll_save h (creatorOk_congr ?_ ?_ hroomC)
            · exact map_map_field (fun p => { p with hasAnswered := false })
                Player.id (fun a => rfl) room.players
            · rfl
  | reset code =>
    show regCreatorOk (resetGame r code).2
    cases hg : r.get code with
    | none => simpa [resetGame, hg] using h
    | some room =>
      have hroomC := creatorOk_of_get h hg
      have heq : (resetGame r code).2
          = r.save { room.resetGame with
              players := (room.resetGame.players.map
                (fun p => { p with hasAnswered := false, score := 0 })) } := by
        simp [resetGame, hg]
      rw [heq]
      refine regAll_save h (creatorOk_congr ?_ ?_ hroomC)
      · exact map_map_field
          (fun p => { p with hasAnswered := false, score := 0 })
          Player.id (fun a => rfl) room.players
      · rfl

theorem regCreatorOk_applyOps (ops : List Op) :
    ∀ r : Registry, regCreatorOk r → safeOps ops r = true →
      regCreatorOk (applyOps ops r) := by
  induction ops with
  | nil =>
    intro r h _
    exact h
  | cons op ops ih =>
    intro r h hs
    have hs1 : safeOp op r = true ∧ safeOps ops (applyOp op r) = true := by
      simpa [safeOps, Bool.and_eq_true] using hs
    exact ih _ (regCreatorOk_applyOp op r h hs1.1) hs1.2

/-- C4 as stated fails on the code: createRoom alone seats nobody (the
HTTP create route, not the registry, adds the creator), so a joinRoom by
a different player yields a non-empty roster in which no entry's id
equals creatorId. -/
theorem creator_invariant_cex :
    ¬ regCreatorUnique
        (applyOps [Op.create "ABCDEF" "C", Op.join "ABCDEF" wUserA] []) := by
  decide

/-- C4 amended: provided player ids in each roster are pairwise distinct
and every joinRoom into a room with an empty roster uses the creator's
own id (exactly what the HTTP create route guarantees), every sequence
of registry operations preserves the invariant that, while the roster is
non-empty, exactly one roster entry's id equals creatorId. -/
theorem creator_invariant_amended
    (r : Registry) (ops : List Op) (h : regCreatorOk r)
    (hsafe : safeOps ops r = true) :
    regCreatorOk (applyOps ops r)
    ∧ regCreatorUnique (applyOps ops r) := by
  have h1 := regCreatorOk_applyOps ops r h hsafe
  exact ⟨h1, fun e he => (h1 e he).2⟩

def wUserC : User :=
  { playerId := "C", username := "carol", profilePicture := "pc",
    mode := Mode.pro }

/-- Witness for the amended C4: create, creator joins, another player
joins, then the creator leaves and the creator role passes on. -/
theorem creator_invariant_amended_witness :
    regCreatorOk (applyOps
      [Op.create "R" "C", Op.join "R" wUserC, Op.join "R" wUserA,
       Op.leave "R" "C"] [])
    ∧ regCreatorUnique (applyOps
      [Op.create "R" "C", Op.join "R" wUserC, Op.join "R" wUserA,
       Op.leave "R" "C"] []) :=
  creator_invariant_amended []
    [Op.create "R" "C", Op.join "R" wUserC, Op.join "R" wUserA,
     Op.leave "R" "C"] (by decide) (by decide)

/-! Stability of the finished state under further nextQuestion calls. -/

def finishedAt (code : String) (g : Game) (r : Registry) : Prop :=
  ∃ room, r.get code = some room ∧ room.code = code ∧ room.game = some g
    ∧ g.questions.length ≤ room.currentQuestionIndex
    ∧ room.status = Status.finished ∧ room.currentQuestion = none

theorem finishedAt_step (s1 s2 : Shuffle) (code : String) (g : Game)
    (r : Registry) (h : finishedAt code g r) :
    finishedAt code g (nextQuestion s1 s2 r code).2 := by
  obtain ⟨room, hget, hcode, hgame, hlen, _, _⟩ := h
  have hge : g.questions.length ≤ room.currentQuestionIndex + 1 :=
    le_trans hlen (Nat.le_succ _)
  have heq : (nextQuestion s1 s2 r code).2
      = r.save { room with
          currentQuestionIndex := room.currentQuestionIndex + 1
          status := Status.finished
          currentQuestion := none } := by
    simp [nextQuestion, hget, hgame, hge]
  refine ⟨{ room with
      currentQuestionIndex := room.currentQuestionIndex + 1
      status := Status.finished
      currentQuestion := none }, ?_, hcode, hgame, hge, rfl, rfl⟩
  rw [heq]
  have hg := Registry.get_save_self r
    { room with
      currentQuestionIndex := room.currentQuestionIndex + 1
      status := Status.finished
      currentQuestion := none }
  simpa [hcode] using hg

theorem finishedAt_iter (code : String) (g : Game)
    (shs : List (Shuffle × Shuffle)) :
    ∀ r : Registry, finishedAt code g r →
      finishedAt code g (iterNextQuestion code shs r) := by
  induction shs with
  | nil =>
    intro r h
    exact h
  | cons s shs ih =>
    intro r h
    exact ih _ (finishedAt_step s.1 s.2 code g r h)

/-- C2: with a loaded game every nextQuestion call moves the stored
index up by exactly one; the call that brings the index to the question
count makes the status finished and the current question absent, and
both persist under arbitrarily many further nextQuestion calls; and an
error from question-view generation while still in range is absorbed
into the same forced finished state with an ok result instead of
surfacing a failure. -/
theorem nextQuestion_increment_and_finish
    (shW shF : Shuffle) (r : Registry) (code : String) (room : GameRoom)
    (g : Game) (hget : r.get code = some room) (hcode : room.code = code)
    (hgame : room.game = some g) :
    (((nextQuestion shW shF r code).2.get code).map
        GameRoom.currentQuestionIndex
      = some (room.currentQuestionIndex + 1))
    ∧ (g.questions.length ≤ room.currentQuestionIndex + 1 →
        nextQuestion shW shF r code
          = (Except.ok ({ room with
                currentQuestionIndex := room.currentQuestionIndex + 1
                status := Status.finished
                currentQuestion := none }, none, true),
             r.save { room with
                currentQuestionIndex := room.currentQuestionIndex + 1
                status := Status.finished
                currentQuestion := none })
        ∧ ∀ shs : List (Shuffle × Shuffle),
            ∃ room2,
              (iterNextQuestion code shs
                  (nextQuestion shW shF r code).2).get code = some room2
              ∧ room2.status = Status.finished
              ∧ room2.currentQuestion = none)
    ∧ (∀ (r2 : Registry) (room2 : GameRoom) (e : String),
        nextQuestionOnGen r2 room2 (Except.error e)
          = (Except.ok ({ room2 with
                status := Status.finished
                currentQuestion := none }, none, true),
             r2.save { room2 with
                status := Status.finished
                currentQuestion := none })) := by
  subst hcode
  refine ⟨?_, ?_, ?_⟩
  · by_cases hge : g.questions.length ≤ room.currentQuestionIndex + 1
    · have heq : (nextQuestion shW shF r room.code).2
          = r.save { room with
              currentQuestionIndex := room.currentQuestionIndex + 1
              status := Status.finished
              currentQuestion := none } := by
        simp [nextQuestion, hget, hgame, hge]
      rw [heq]
      have hgs : (r.save { room with
          currentQuestionIndex := room.currentQuestionIndex + 1
          status := Status.finished
          currentQuestion := none }).get room.code
          = some { room with
              currentQuestionIndex := room.currentQuestionIndex + 1
              status := Status.finished
              currentQuestion := none } :=
        Registry.get_save_self r _
      rw [hgs]
      rfl
    · cases hq : generateQuestion shW shF
          { room with
            game := some g
            currentQuestionIndex := room.currentQuestionIndex + 1
            players := (room.players.map
              (fun p => { p with hasAnswered := false })) } with
      | error e =>
        have heq : (nextQuestion shW shF r room.code).2
            = r.save { room with
                currentQuestionIndex := room.currentQuestionIndex + 1
                players := (room.players.map
                  (fun p => { p with hasAnswered := false }))
                status := Status.finished
                currentQuestion := none } := by
          simp [nextQuestion, hget, hgame, hge, nextQuestionOnGen, hq]
        rw [heq]
        have hgs : (r.save { room with
            currentQuestionIndex := room.currentQuestionIndex + 1
            players := (room.players.map
              (fun p => { p with hasAnswered := false }))
            status := Status.finished
            currentQuestion := none }).get room.code
            = some { room with
                currentQuestionIndex := room.currentQuestionIndex + 1
                players := (room.players.map
                  (fun p => { p with hasAnswered := false }))
                status := Status.finished
                currentQuestion := none } :=
          Registry.get_save_self r _
        rw [hgs]
        rfl
      | ok q =>
        have heq : (nextQuestion shW shF r room.code).2
            = r.save { room with
                currentQuestionIndex := room.currentQuestionIndex + 1
                players := (room.players.map
                  (fun p => { p with hasAnswered := false }))
                currentQuestion := some q } := by
          simp [nextQuestion, hget, hgame, hge, nextQuestionOnGen, hq]
        rw [heq]
        have hgs : (r.save { room with
            currentQuestionIndex := room.currentQuestionIndex + 1
            players := (room.players.map
              (fun p => { p with hasAnswered := false }))
            currentQuestion := some q }).get room.code
            = some { room with
                currentQuestionIndex := room.currentQuestionIndex + 1
                players := (room.players.map
                  (fun p => { p with hasAnswered := false }))
                currentQuestion := some q } :=
          Registry.get_save_self r _
        rw [hgs]
        rfl
  · intro hge
    constructor
    · simp [nextQuestion, hget, hgame, hge]
    · intro shs
      have hfin : finishedAt room.code g
          (nextQuestion shW shF r room.code).2 := by
        have heq : (nextQuestion shW shF r room.code).2
            = r.save { room with
                currentQuestionIndex := room.currentQuestionIndex + 1
                status := Status.finished
                currentQuestion := none } := by
          simp [nextQuestion, hget, hgame, hge]
        refine ⟨{ room with
            currentQuestionIndex := room.currentQuestionIndex + 1
            status := Status.finished
            currentQuestion := none }, ?_, rfl, hgame, hge, rfl, rfl⟩
        rw [heq]
        exact Registry.get_save_self r _
      obtain ⟨room2, hg2, _, _, _, h5, h6⟩ :=
        finishedAt_iter room.code g shs _ hfin
      exact ⟨room2, hg2, h5, h6⟩
  · intro r2 room2 e
    rfl

/-- Witness for C2: advancing past the last question of a two-question
quiz finishes the game. -/
theorem nextQuestion_increment_and_finish_witness :
    (((nextQuestion id id
        [("R", { wRoomPlaying with currentQuestionIndex := 1 })] "R").2.get
          "R").map GameRoom.currentQuestionIndex = some 2)
    ∧ ∃ room2,
        (iterNextQuestion "R" []
            (nextQuestion id id
              [("R", { wRoomPlaying with currentQuestionIndex := 1 })]
              "R").2).get "R" = some room2
        ∧ room2.status = Status.finished
        ∧ room2.currentQuestion = none := by
  have h := nextQuestion_increment_and_finish id id
    [("R", { wRoomPlaying with currentQuestionIndex := 1 })] "R"
    { wRoomPlaying with currentQuestionIndex := 1 } wGame rfl rfl rfl
  exact ⟨h.1, (h.2.1 (by decide)).2 []⟩

/-- C7: under honest shuffles (permutations), with the correct option in
the pool and at least three wrong options, the generated client-facing
list holds exactly 4 entries: the correct option plus 3 distinct wrong
options drawn without replacement from the pool excluding the correct
one, in a permutation of that draw, and the correct option's id occurs
exactly once. -/
theorem generateMultipleChoiceOptions_spec
    (shW shF : Shuffle) (room : GameRoom) (g : Game) (question : Question)
    (correct : OptionEntry)
    (hgame : room.game = some g)
    (hq : g.questions.get? room.currentQuestionIndex = some question)
    (hpermW : ∀ l, (shW l).Perm l)
    (hpermF : ∀ l, (shF l).Perm l)
    (hfind : (g.options.getD []).find? (fun o => o.id == question.answer)
        = some correct)
    (hwrong : 3 ≤ ((g.options.getD []).filter
        (fun o => o.id != question.answer)).length)
    (hnodup : ((g.options.getD []).map OptionEntry.id).Nodup) :
    (generateMultipleChoiceOptions shW shF room).length = 4
    ∧ correct ∈ generateMultipleChoiceOptions shW shF room
    ∧ (generateMultipleChoiceOptions shW shF room).countP
        (fun o => o.id == question.answer) = 1
    ∧ (∀ o ∈ generateMultipleChoiceOptions shW shF room,
        o = correct ∨ (o ∈ g.options.getD [] ∧ o.id ≠ question.answer))
    ∧ (generateMultipleChoiceOptions shW shF room).Nodup
    ∧ (generateMultipleChoiceOptions shW shF room).Perm
        (correct :: (shW ((g.options.getD []).filter
          (fun o => o.id != question.answer))).take 3) := by
  have hq' : g.questions[room.currentQuestionIndex]? = some question := by
    rw [← List.get?_eq_getElem?]
    exact hq
  have hres : generateMultipleChoiceOptions shW shF room
      = shF (correct :: (shW ((g.options.getD []).filter
          (fun o => o.id != question.answer))).take 3) := by
    simp [generateMultipleChoiceOptions, hgame, hq', hfind]
  have hperm : (generateMultipleChoiceOptions shW shF room).Perm
      (correct :: (shW ((g.options.getD []).filter
        (fun o => o.id != question.answer))).take 3) := by
    rw [hres]
    exact hpermF _
  have hwlen : ((shW ((g.options.getD []).filter
      (fun o => o.id != question.answer))).take 3).length = 3 := by
    rw [List.length_take, (hpermW _).length_eq]
    exact Nat.min_eq_left hwrong
  have hwmem : ∀ a ∈ (shW ((g.options.getD []).filter
      (fun o => o.id != question.answer))).take 3,
      a ∈ (g.options.getD []).filter (fun o => o.id != question.answer) := by
    intro a ha
    exact ((hpermW _).mem_iff).1 (List.mem_of_mem_take ha)
  have hwne : ∀ a ∈ (shW ((g.options.getD []).filter
      (fun o => o.id != question.answer))).take 3,
      ¬ (a.id == question.answer) = true := by
    intro a ha hb
    have hmem := hwmem a ha
    have hbne := (List.mem_filter.1 hmem).2
    rw [bne_iff_ne] at hbne
    exact hbne (by simpa using hb)
  have hpcorrect := List.find?_some hfind
  refine ⟨?_, ?_, ?_, ?_, ?_, hperm⟩
  · rw [hperm.length_eq, List.length_cons, hwlen]
  · exact (hperm.mem_iff).2 (List.mem_cons_self _ _)
  · rw [hperm.countP_eq, List.countP_cons, List.countP_eq_zero.2 hwne]
    simp [hpcorrect]
  · intro o ho
    rcases List.mem_cons.1 ((hperm.mem_iff).1 ho) with rfl | hmem
    · exact Or.inl rfl
    · have hf := List.mem_filter.1 (hwmem o hmem)
      refine Or.inr ⟨hf.1, ?_⟩
      have := hf.2
      rw [bne_iff_ne] at this
      exact this
  · have hpoolnd : (g.options.getD []).Nodup := List.Nodup.of_map _ hnodup
    have hfilnd : ((g.options.getD []).filter
        (fun o => o.id != question.answer)).Nodup := hpoolnd.filter _
    have hshnd : (shW ((g.options.getD []).filter
        (fun o => o.id != question.answer))).Nodup :=
      ((hpermW _).nodup_iff).2 hfilnd
    have hwnd : ((shW ((g.options.getD []).filter
        (fun o => o.id != question.answer))).take 3).Nodup :=
      (List.take_sublist _ _).nodup hshnd
    have hnotmem : correct ∉ (shW ((g.options.getD []).filter
        (fun o => o.id != question.answer))).take 3 := by
      intro hmem
      exact hwne correct hmem hpcorrect
    exact (hperm.nodup_iff).2 (List.nodup_cons.2 ⟨hnotmem, hwnd⟩)

/-- Witness for C7: the concrete five-option pool with answer a. -/
theorem generateMultipleChoiceOptions_spec_witness :
    (generateMultipleChoiceOptions id id
        { GameRoom.new "R" "A" with game := some wGame }).length = 4
    ∧ (generateMultipleChoiceOptions id id
        { GameRoom.new "R" "A" with game := some wGame }).countP
          (fun o => o.id == wQ1.answer) = 1 := by
  have h := generateMultipleChoiceOptions_spec id id
    { GameRoom.new "R" "A" with game := some wGame } wGame wQ1
    { id := "a", text := "A" } rfl rfl (fun l => List.Perm.refl l)
    (fun l => List.Perm.refl l) rfl (by decide) (by decide)
  exact ⟨h.1, h.2.2.1⟩

/-! Timer lemmas. -/

theorem find?_filter_self {β : Type} (l : List (String × β)) (code : String) :
    (l.filter (fun p => p.1 != code)).find? (fun p => p.1 == code)
      = none := by
  rw [List.find?_eq_none]
  intro x hx hb
  have h1 := (List.mem_filter.1 hx).2
  rw [bne_iff_ne] at h1
  exact h1 (by simpa using hb)

theorem lookup_clearTimer_self (code : String) (s : TimerState) :
    (clearTimer code s).lookup code = none := by
  unfold clearTimer
  cases hl : s.lookup code with
  | none => exact hl
  | some t => simp [TimerState.lookup, find?_filter_self]

theorem timerWF_clearTimer (code : String) (s : TimerState)
    (hwf : timerWF s) : timerWF (clearTimer code s) := by
  obtain ⟨hnd, hlt, hmap⟩ := hwf
  unfold clearTimer
  cases hl : s.lookup code with
  | none => exact ⟨hnd, hlt, hmap⟩
  | some t =>
    refine ⟨hnd.filter _, ?_, ?_⟩
    · intro p hp
      exact hlt p (List.mem_of_mem_filter hp)
    · intro p hp
      have hpl := List.mem_filter.1 hp
      have hne : p.2 ≠ t := by
        have := hpl.2
        rwa [bne_iff_ne] at this
      have hp1 : p.1 ≠ code := by
        intro hc
        have := hmap p hpl.1
        rw [hc, hl] at this
        exact hne (Option.some.inj this).symm
      show (List.find? (fun q => q.1 == p.1)
          (s.timers.filter (fun q => q.1 != code))).map (fun q => q.2)
        = some p.2
      rw [find?_filter_key s.timers p.1 code hp1]
      exact hmap p hpl.1

theorem nextId_clearTimer (code : String) (s : TimerState) :
    (clearTimer code s).nextId = s.nextId := by
  unfold clearTimer
  cases hl : s.lookup code with
  | none => rfl
  | some t => rfl

theorem live_clearTimer_subset (code : String) (s : TimerState) :
    ∀ p ∈ (clearTimer code s).live, p ∈ s.live := by
  intro p hp
  unfold clearTimer at hp
  cases hl : s.lookup code with
  | none =>
    rw [hl] at hp
    exact hp
  | some t =>
    rw [hl] at hp
    exact List.mem_of_mem_filter hp

theorem timerWF_startQuestionTimer (code : String) (d : Nat)
    (s : TimerState) (hwf : timerWF s) :
    timerWF (startQuestionTimer code d s) := by
  have hwf1 := timerWF_clearTimer code s hwf
  obtain ⟨hnd1, hlt1, hmap1⟩ := hwf1
  refine ⟨?_, ?_, ?_⟩
  · refine List.nodup_cons.2 ⟨?_, hnd1⟩
    intro hmem
    have := hlt1 _ hmem
    exact absurd this (lt_irrefl _)
  · intro p hp
    rcases List.mem_cons.1 hp with rfl | hmem
    · exact Nat.lt_succ_self _
    · exact Nat.lt_succ_of_lt (hlt1 p hmem)
  · intro p hp
    rcases List.mem_cons.1 hp with rfl | hmem
    · show (List.find? (fun q => q.1 == code)
          ((code, (clearTimer code s).nextId) ::
            (clearTimer code s).timers)).map (fun q => q.2) = _
      rw [List.find?_cons_of_pos _ (by simp)]
      rfl
    · have hp1 : p.1 ≠ code := by
        intro hc
        have h1 := hmap1 p hmem
        rw [hc, lookup_clearTimer_self] at h1
        cases h1
      show (List.find? (fun q => q.1 == p.1)
          ((code, (clearTimer code s).nextId) ::
            (clearTimer code s).timers)).map (fun q => q.2) = some p.2
      rw [List.find?_cons_of_neg _ (by simp [Ne.symm hp1])]
      exact hmap1 p hmem

theorem live_filter_le_one {s : TimerState} (hwf : timerWF s) (c : String) :
    (s.live.filter (fun p => p.1 == c)).length ≤ 1 := by
  cases hl : s.live.filter (fun p => p.1 == c) with
  | nil => simp
  | cons p rest =>
    have hsub : ∀ q ∈ s.live.filter (fun p => p.1 == c), q = p := by
      intro q hq
      have hqm := List.mem_filter.1 hq
      have hpm := List.mem_filter.1
        (show p ∈ s.live.filter (fun p => p.1 == c) by
          rw [hl]
          exact List.mem_cons_self _ _)
      have hq1 : q.1 = c := by simpa using hqm.2
      have hp1 : p.1 = c := by simpa using hpm.2
      have hql := hwf.2.2 q hqm.1
      have hpl := hwf.2.2 p hpm.1
      rw [hq1] at hql
      rw [hp1] at hpl
      have h2 : q.2 = p.2 := by
        rw [hql] at hpl
        exact Option.some.inj hpl
      have h1 : q.1 = p.1 := by rw [hq1, hp1]
      exact Prod.ext h1 h2
    have hnd : (s.live.filter (fun p => p.1 == c)).Nodup := hwf.1.filter _
    rw [hl] at hnd
    cases rest with
    | nil => simp
    | cons q rest2 =>
      have hqp : q = p := hsub q (by
        rw [hl]
        exact List.mem_cons_of_mem _ (List.mem_cons_self _ _))
      rw [List.nodup_cons] at hnd
      exact absurd (hqp ▸ List.mem_cons_self q rest2) hnd.1

/-- C9: cancelling a room's countdown timer is idempotent and a no-op
when no timer is registered; arming a question timer cancels any prior
timer for that room first, and at most one live timer per room exists
afterwards. -/
theorem timer_cancel_idempotent_exclusive
    (s : TimerState) (code : String) (d : Nat) (hwf : timerWF s) :
    (s.lookup code = none → clearTimer code s = s)
    ∧ clearTimer code (clearTimer code s) = clearTimer code s
    ∧ timerWF (clearTimer code s)
    ∧ timerWF (startQuestionTimer code d s)
    ∧ (∀ t, (code, t) ∈ s.live →
        (code, t) ∉ (startQuestionTimer code d s).live)
    ∧ ∀ c, ((startQuestionTimer code d s).live.filter
        (fun p => p.1 == c)).length ≤ 1 := by
  have hnoop : ∀ s' : TimerState, s'.lookup code = none →
      clearTimer code s' = s' := by
    intro s' h
    simp [clearTimer, h]
  refine ⟨hnoop s, hnoop _ (lookup_clearTimer_self code s),
    timerWF_clearTimer code s hwf,
    timerWF_startQuestionTimer code d s hwf, ?_, ?_⟩
  · intro t hmem hmem'
    rcases List.mem_cons.1 hmem' with heq | hmem2
    · have hb := hwf.2.1 (code, t) hmem
      have ht : t = (clearTimer code s).nextId := congrArg Prod.snd heq
      rw [nextId_clearTimer] at ht
      rw [ht] at hb
      exact absurd hb (lt_irrefl _)
    · have hl := (timerWF_clearTimer code s hwf).2.2 (code, t) hmem2
      rw [lookup_clearTimer_self] at hl
      cases hl
  · exact live_filter_le_one (timerWF_startQuestionTimer code d s hwf)

/-- Witness for C9: a state with one live timer for room R. -/
theorem timer_cancel_idempotent_exclusive_witness :
    (TimerState.lookup ⟨[("R", 0)], [("R", 0)], 1⟩ "S" = none →
      clearTimer "S" ⟨[("R", 0)], [("R", 0)], 1⟩
        = ⟨[("R", 0)], [("R", 0)], 1⟩)
    ∧ clearTimer "S" (clearTimer "S" ⟨[("R", 0)], [("R", 0)], 1⟩)
        = clearTimer "S" ⟨[("R", 0)], [("R", 0)], 1⟩
    ∧ timerWF (clearTimer "S" ⟨[("R", 0)], [("R", 0)], 1⟩)
    ∧ timerWF (startQuestionTimer "S" 15 ⟨[("R", 0)], [("R", 0)], 1⟩)
    ∧ (∀ t, ("S", t) ∈ ([("R", 0)] : List (String × Nat)) →
        ("S", t) ∉ (startQuestionTimer "S" 15
          ⟨[("R", 0)], [("R", 0)], 1⟩).live)
    ∧ ∀ c, ((startQuestionTimer "S" 15
        ⟨[("R", 0)], [("R", 0)], 1⟩).live.filter
          (fun p => p.1 == c)).length ≤ 1 :=
  timer_cancel_idempotent_exclusive ⟨[("R", 0)], [("R", 0)], 1⟩ "S" 15
    (by decide)
